import Mathlib

/-!
Verification of the CDC / relay core of the repository, as a shallow
embedding in Lean.  Part I embeds:

* the owner's DDL sink (`ddlSinkImpl` in `cdc/owner`): `emitDDLEvent` and
  the background `run` loop, as a step relation on an explicit state;
* the watermark-clamping fragment of `changefeed.tick` and
  `changefeed.updateStatus` (`cdc/owner/changefeed.go`).

Timestamps (`model.Ts`, a Go `uint64`) are modelled as `Nat`: the code only
compares and copies them, never overflows them.
-/

set_option autoImplicit false

/-- A DDL event, reduced to the only field `ddlSinkImpl` inspects: `CommitTs`. -/
structure DDLEvent where
  commitTs : Nat
deriving DecidableEq, Repr

/-- State of `ddlSinkImpl` relevant to DDL emission: the two watermarks
`ddlFinishedTs` and `ddlSentTs`, the capacity-1 channel `ddlCh` (modelled as
`Option`: `some` = one event buffered, `none` = empty), and the event the
background goroutine has received from the channel but not yet finished
emitting downstream (`processing`, implicit in the Go code as the local
variable `ddl` of the `run` loop). -/
structure DDLSinkState where
  ddlFinishedTs : Nat
  ddlSentTs : Nat
  ddlCh : Option DDLEvent
  processing : Option DDLEvent
deriving DecidableEq, Repr

/-- The state `newDDLSink` starts from: both watermarks zero, empty channel. -/
def initDDLSink : DDLSinkState := ⟨0, 0, none, none⟩

/-- `ddlSinkImpl.emitDDLEvent`, branch by branch.  The Go non-blocking
`select` send on the capacity-1 `ddlCh` succeeds exactly when the channel is
empty; the `ctx.Done()` cancellation arm (which also returns `done = false`)
is environment-driven and omitted.  Returns the `done` flag and the updated
state. -/
def emitDDLEvent (s : DDLSinkState) (ddl : DDLEvent) : Bool × DDLSinkState :=
  if ddl.commitTs ≤ s.ddlFinishedTs then
    (true, s)
  else if ddl.commitTs ≤ s.ddlSentTs then
    (false, s)
  else
    match s.ddlCh with
    | none => (false, { s with ddlCh := some ddl, ddlSentTs := ddl.commitTs })
    | some _ => (false, s)

/-- Steps of the DDL sink: an `emitDDLEvent` call by the owner, the `run`
loop receiving an event from `ddlCh`, the `run` loop finishing a received
event (downstream emission succeeded, or failed with an ignorable error, so
`ddlFinishedTs` is stored), and the `run` loop aborting on a non-ignorable
error (the goroutine throws and returns without touching `ddlFinishedTs`). -/
inductive DDLSinkStep : DDLSinkState → DDLSinkState → Prop
  | emit (s : DDLSinkState) (ddl : DDLEvent) :
      DDLSinkStep s (emitDDLEvent s ddl).2
  | recv (s : DDLSinkState) (d : DDLEvent) (h : s.ddlCh = some d)
      (h2 : s.processing = none) :
      DDLSinkStep s { s with ddlCh := none, processing := some d }
  | finishOk (s : DDLSinkState) (d : DDLEvent) (h : s.processing = some d) :
      DDLSinkStep s { s with processing := none, ddlFinishedTs := d.commitTs }
  | finishFail (s : DDLSinkState) (d : DDLEvent) (h : s.processing = some d) :
      DDLSinkStep s { s with processing := none }

/-- Reachability of DDL sink states from the initial state. -/
inductive DDLSinkReachable : DDLSinkState → Prop
  | init : DDLSinkReachable initDDLSink
  | step {s s' : DDLSinkState} :
      DDLSinkReachable s → DDLSinkStep s s' → DDLSinkReachable s'

/-- Inductive invariant of the DDL sink: the sent watermark dominates the
finished watermark, and every event buffered in the channel or being
processed was recorded in `ddlSentTs` when it was sent. -/
def DDLSinkInv (s : DDLSinkState) : Prop :=
  s.ddlFinishedTs ≤ s.ddlSentTs
  ∧ (∀ d : DDLEvent, s.ddlCh = some d → d.commitTs ≤ s.ddlSentTs)
  ∧ (∀ d : DDLEvent, s.processing = some d → d.commitTs ≤ s.ddlSentTs)

/-!
The changefeed owner (`cdc/owner/changefeed.go`).  We embed the tail of
`changefeed.tick`: the `barrierTs < checkpointTs` early return, the
scheduler result (`none` models the `CheckpointCannotProceed` sentinel,
`some (newCheckpointTs, newResolvedTs)` a normal result), the clamping of
both watermarks to the barrier, and `changefeed.updateStatus`.
-/

/-- The fields of `model.ChangeFeedStatus` that `updateStatus` patches. -/
structure ChangeFeedStatus where
  resolvedTs : Nat
  checkpointTs : Nat
deriving DecidableEq, Repr

/-- `changefeed.updateStatus`: the status patch leaves a missing status
alone and otherwise overwrites both watermark fields (the `changed` flag
only suppresses no-op writes and does not alter the resulting value). -/
def updateStatus (status : Option ChangeFeedStatus) (checkpointTs resolvedTs : Nat) :
    Option ChangeFeedStatus :=
  match status with
  | none => none
  | some st => some { st with resolvedTs := resolvedTs, checkpointTs := checkpointTs }

/-- The watermark fragment of `changefeed.tick` after `handleBarrier`
returned `barrierTs`: if `barrierTs < checkpointTs` the tick returns without
scheduling; if the scheduler returns the `CheckpointCannotProceed` sentinel
(`none`) nothing is persisted; otherwise both new watermarks are clamped to
`barrierTs` and handed to `updateStatus`.  Returns the pair
`(newCheckpointTs, newResolvedTs)` actually persisted, or `none` when the
tick persists nothing. -/
def tickPersistedWatermarks (checkpointTs barrierTs : Nat)
    (sched : Option (Nat × Nat)) : Option (Nat × Nat) :=
  if barrierTs < checkpointTs then none
  else
    match sched with
    | none => none
    | some (newCheckpointTs, newResolvedTs) =>
        let newResolvedTs' :=
          if newResolvedTs > barrierTs then barrierTs else newResolvedTs
        let newCheckpointTs' :=
          if newCheckpointTs > barrierTs then barrierTs else newCheckpointTs
        some (newCheckpointTs', newResolvedTs')

/-!
The relay unit (`dm/relay/relay.go`).  Binlog positions, events, the event
preprocessing, crash recovery of the latest relay log file, and the
`handleEvents` loop.  File sizes and scan offsets are Go `int64` values,
modelled as `Int`; the Go cast `uint32(x)` of a non-negative `int64` is
`x % 2^32`.
-/

/-- A GTID set, opaque to every property verified here: only its identity
matters, so it is modelled by its rendered string. -/
abbrev GtidSet := String

/-- `mysql.Position`: binlog file name and a `uint32` offset. -/
structure MysqlPosition where
  name : String
  pos : Nat
deriving DecidableEq, Repr

/-- The Go conversion `uint32(x)` applied to a non-negative `int64`. -/
def uint32cast (x : Int) : Nat := (x % (2 : Int) ^ 32).toNat

/-- `recoverResult` of `Relay.doRecovering`. -/
structure RecoverResult where
  truncated : Bool
  latestPos : MysqlPosition
  latestGTIDs : Option GtidSet
deriving DecidableEq, Repr

/-- Errors `Relay.doRecovering` can surface (I/O failures of `Truncate` and
`OpenFile`, which are environment-driven, are not modelled). -/
inductive RecoverError
  | relayWriterLatestPosGTFileSize
deriving DecidableEq, Repr

/-- `Relay.doRecovering`, with the file system abstracted to the `os.Stat`
outcome (`fileExists`, `fileSize`) and the scan `getTxnPosGTIDs` — defined
outside the given sources — abstracted to its results `latestPos` (offset of
the last complete transaction) and `latestGTIDs`.  The returned position is
built as `mysql.Position{Name: filename, Pos: uint32(latestPos)}`, hence the
`uint32cast`. -/
def doRecovering (fileExists : Bool) (fileSize : Int) (filename : String)
    (latestPos : Int) (latestGTIDs : Option GtidSet) :
    Except RecoverError RecoverResult :=
  if fileExists = false ∨ filename = "" then
    .ok ⟨false, ⟨"", 0⟩, none⟩
  else if fileSize = latestPos then
    .ok ⟨false, ⟨filename, uint32cast latestPos⟩, latestGTIDs⟩
  else if fileSize < latestPos then
    .error .relayWriterLatestPosGTFileSize
  else
    .ok ⟨true, ⟨filename, uint32cast latestPos⟩, latestGTIDs⟩

/-- The binlog event types the relay engine inspects by name
(`e.Header.EventType`); every other value of the Go enum is `otherType`. -/
inductive BinlogEventType
  | heartbeatType
  | formatDescriptionType
  | rotateType
  | otherType
deriving DecidableEq, Repr

/-- `replication.EventHeader`, reduced to the fields the relay engine
reads: flags (`uint16`), `LogPos` (`uint32`), the event type tag. -/
structure BinlogEventHeader where
  eventType : BinlogEventType
  flags : Nat
  logPos : Nat
deriving DecidableEq, Repr

/-- The concrete Go event structs `preprocessEvent` switches on.  `query`
carries the statement text and the event's GTID set, `xid` its GTID set,
`rotate` the next file position (`uint64`) and name.  `generic` is
`replication.GenericEvent` (heartbeats among others); `otherEvent` is every
struct type not named in the switch, handled by its `default` branch. -/
inductive BinlogEventBody
  | previousGTIDs
  | mariadbGTIDList
  | rotate (position : Nat) (nextLogName : String)
  | query (queryStr : String) (gset : Option GtidSet)
  | xid (gset : Option GtidSet)
  | generic
  | otherEvent
deriving DecidableEq, Repr

/-- A binlog event: header plus typed payload. -/
structure BinlogEvent where
  header : BinlogEventHeader
  body : BinlogEventBody
deriving DecidableEq, Repr

/-- `replication.LOG_EVENT_ARTIFICIAL_F` (0x0020). -/
def LOG_EVENT_ARTIFICIAL_F : Nat := 0x20

/-- Ignore reason constant `ignoreReasonHeartbeat`. -/
def ignoreReasonHeartbeat : String := "heartbeat event"

/-- Ignore reason constant `ignoreReasonArtificialFlag`. -/
def ignoreReasonArtificialFlag : String := "artificial flag (0x0020) set"

/-- `preprocessResult`. -/
structure PreprocessResult where
  ignore : Bool
  ignoreReason : String
  logPos : Nat
  nextLogName : String
  gtidSet : Option GtidSet
  canSaveGTID : Bool
deriving DecidableEq, Repr

/-- `Relay.preprocessEvent`.  `checkIsDDL` abstracts
`parserpkg.CheckIsDDL(query, parser2)` (defined outside the given sources).
The artificial-flag test appears only in the `default` branch of the type
switch, exactly as in the source. -/
def preprocessEvent (checkIsDDL : String → Bool) (e : BinlogEvent) :
    PreprocessResult :=
  let base : PreprocessResult :=
    { ignore := false, ignoreReason := "", logPos := e.header.logPos,
      nextLogName := "", gtidSet := none, canSaveGTID := false }
  match e.body with
  | .previousGTIDs => { base with canSaveGTID := true }
  | .mariadbGTIDList => { base with canSaveGTID := true }
  | .rotate position nextLogName =>
      { base with logPos := position % 2 ^ 32, nextLogName := nextLogName }
  | .query queryStr gset =>
      if checkIsDDL queryStr then
        { base with gtidSet := gset, canSaveGTID := true }
      else base
  | .xid gset => { base with gtidSet := gset, canSaveGTID := true }
  | .generic =>
      if e.header.eventType = .heartbeatType then
        { base with ignore := true, ignoreReason := ignoreReasonHeartbeat }
      else base
  | .otherEvent =>
      if e.header.flags &&& LOG_EVENT_ARTIFICIAL_F ≠ 0 then
        { base with ignore := true, ignoreReason := ignoreReasonArtificialFlag }
      else base

/-- Modelled from the spec: `utils.IsFakeRotateEvent` is not part of the
given sources (only its caller `handleEvents` is).  The spec defines a fake
rotate as "synthetic, flag=`LOG_EVENT_ARTIFICIAL_F` set on a rotate-event
header". -/
def isFakeRotateEvent (h : BinlogEventHeader) : Bool :=
  h.flags &&& LOG_EVENT_ARTIFICIAL_F ≠ 0

/-- Whether the event payload is a `replication.RotateEvent` (the Go type
assertion `e.Event.(*replication.RotateEvent)`). -/
def isRotateBody : BinlogEventBody → Bool
  | .rotate _ _ => true
  | _ => false

/-- Modelled from the spec: `gtid.Set.Set(rawGTID)` is not part of the given
sources (only its caller is); §3 specifies "a mutable `Set(rawGTID)`
operation", and `handleEvents` passes it the possibly-absent GTID set of the
preprocessed event; an absent set leaves the meta GTID unchanged. -/
def gtidSetApply (g : GtidSet) (raw : Option GtidSet) : GtidSet := raw.getD g

/-- Error results of `handleEvents` (reader, writer and metadata I/O errors
are environment-driven and not modelled). -/
inductive RelayError
  | rotateEventWithDifferentServerID
deriving DecidableEq, Repr

/-- Ghost trace of the externally visible actions of `handleEvents`:
`saveFlushMeta` = a successful `r.saveAndFlushMeta` (a `SaveMeta` followed
by `FlushMeta`), `saveMeta` = a successful `r.SaveMeta`, `callWriteEvent` =
a call to `r.writer.WriteEvent`, `notifyEvent` = `r.notify`. -/
inductive RelayAction
  | saveFlushMeta (pos : MysqlPosition) (g : GtidSet)
  | saveMeta (pos : MysqlPosition) (g : GtidSet)
  | callWriteEvent (e : BinlogEvent)
  | notifyEvent (e : BinlogEvent)
deriving DecidableEq, Repr

/-- The loop state of `Relay.handleEvents`: `lastPos`/`lastGTID` as in the
source, the `firstEvent` flag, plus the ghost action trace. -/
structure HandleState where
  lastPos : MysqlPosition
  lastGTID : GtidSet
  firstEvent : Bool
  trace : List RelayAction
deriving DecidableEq, Repr

/-- The initial loop state of `handleEvents`: position and GTID set loaded
from the metadata, `firstEvent := true`. -/
def initHandleState (pos : MysqlPosition) (g : GtidSet) : HandleState :=
  ⟨pos, g, true, []⟩

/-- One upstream event together with the environment answers the loop body
consumes for it: `upstreamIsNew` is the `isNewServer` comparison of the
upstream `server_uuid` against the metadata (queried only at fake rotates),
`writerIgnore` is the `Ignore` flag of the writer's `wResult` (idempotent
re-write protection). -/
structure RelayInputEvent where
  event : BinlogEvent
  upstreamIsNew : Bool
  writerIgnore : Bool
deriving DecidableEq, Repr

/-- The rotate handling at the top of the loop body: when the preprocessed
event names a next binlog file greater than `lastPos.Name`, move `lastPos`
to the start of that file. -/
def rotateAdvance (t : PreprocessResult) (s : HandleState) : HandleState :=
  if t.nextLogName ≠ "" ∧ s.lastPos.name < t.nextLogName then
    { s with lastPos := ⟨t.nextLogName, t.logPos⟩ }
  else s

/-- Steps 3 and 4 of the `handleEvents` loop body: call the writer (and stop
there when the writer ignores the event), notify listeners, update
`lastPos`/`lastGTID` from the preprocess result (`pos1`, `gtid1`), fall back
to the header position in non-GTID (raw) mode (`pos2`, which also forces
`needSavePos`), save the metadata at transaction boundaries, and on a real
(non-fake) rotate switch `lastPos.Name` and save-and-flush (`pos3`).  The
ghost trace collects the writer call, the listener notification and the
metadata saves in source order. -/
def relayWritePhase (enableGTID : Bool) (e : BinlogEvent) (t : PreprocessResult)
    (writerIgnore : Bool) (s : HandleState) : HandleState :=
  if writerIgnore then { s with trace := s.trace ++ [.callWriteEvent e] }
  else
    let pos1 : MysqlPosition := ⟨s.lastPos.name, t.logPos⟩
    let gtid1 : GtidSet := gtidSetApply s.lastGTID t.gtidSet
    let pos2 : MysqlPosition :=
      if enableGTID = false ∧ e.header.eventType ≠ .rotateType then
        ⟨pos1.name, e.header.logPos⟩
      else pos1
    let needSavePos : Bool := if enableGTID = false then true else t.canSaveGTID
    if t.nextLogName ≠ "" ∧ isFakeRotateEvent e.header = false then
      let pos3 : MysqlPosition := ⟨t.nextLogName, pos2.pos⟩
      { s with lastPos := pos3, lastGTID := gtid1,
               trace := s.trace ++ ([.callWriteEvent e, .notifyEvent e]
                 ++ (if needSavePos then [.saveMeta pos2 gtid1] else [])
                 ++ [.saveFlushMeta pos3 gtid1]) }
    else
      { s with lastPos := pos2, lastGTID := gtid1,
               trace := s.trace ++ ([.callWriteEvent e, .notifyEvent e]
                 ++ (if needSavePos then [.saveMeta pos2 gtid1] else [])) }

/-- The tail of the loop body for an event that is kept (not ignored, no
upstream switch): save-and-flush the metadata if this is the first kept
event, then run the write phase. -/
def handleKeptEvent (enableGTID : Bool) (e : BinlogEvent) (t : PreprocessResult)
    (writerIgnore : Bool) (s1 : HandleState) : HandleState :=
  let s2 : HandleState :=
    if s1.firstEvent then
      { s1 with firstEvent := false,
                trace := s1.trace ++ [.saveFlushMeta s1.lastPos s1.lastGTID] }
    else s1
  relayWritePhase enableGTID e t writerIgnore s2

/-- One iteration of the `handleEvents` loop on a successfully read event:
preprocess, advance `lastPos` on a rotate to a newer file, skip ignored
events, detect an upstream switch at a fake rotate (terminating with
`ErrRotateEventWithDifferentServerID`), then handle the kept event. -/
def handleOneEvent (checkIsDDL : String → Bool) (enableGTID : Bool)
    (s : HandleState) (ie : RelayInputEvent) : Except RelayError HandleState :=
  let e := ie.event
  let t := preprocessEvent checkIsDDL e
  let s1 := rotateAdvance t s
  if t.ignore then .ok s1
  else if isRotateBody e.body = true ∧ isFakeRotateEvent e.header = true
      ∧ ie.upstreamIsNew = true then
    .error .rotateEventWithDifferentServerID
  else
    .ok (handleKeptEvent enableGTID e t ie.writerIgnore s1)

/-- `Relay.handleEvents` over a finite stream of read events (the reader
either yields the next event or ends the run with an environment error,
which simply truncates the stream). -/
def handleEventsList (checkIsDDL : String → Bool) (enableGTID : Bool) :
    HandleState → List RelayInputEvent → Except RelayError HandleState
  | s, [] => .ok s
  | s, ie :: rest =>
      match handleOneEvent checkIsDDL enableGTID s ie with
      | .error err => .error err
      | .ok s' => handleEventsList checkIsDDL enableGTID s' rest

/-- Whether a trace action is a call to `writer.WriteEvent`. -/
def isWriteAction : RelayAction → Bool
  | .callWriteEvent _ => true
  | _ => false

/-- Whether a trace action is a successful save-and-flush of the metadata. -/
def isSaveFlushAction : RelayAction → Bool
  | .saveFlushMeta _ _ => true
  | _ => false

/-- Holds when a save-and-flush of the metadata precedes the first call to
`writer.WriteEvent` in the trace (vacuously when nothing is written). -/
def saveFlushBeforeFirstWrite : List RelayAction → Bool
  | [] => true
  | a :: rest =>
      if isSaveFlushAction a then true
      else if isWriteAction a then false
      else saveFlushBeforeFirstWrite rest

/-- Induction invariant of the `handleEvents` loop relating the `firstEvent`
flag to the ghost trace: before the first kept event is processed nothing
has been written; afterwards the trace contains a save-and-flush of the
metadata and one precedes the first write. -/
def TraceInv (s : HandleState) : Prop :=
  match s.firstEvent with
  | true => s.trace.any isWriteAction = false
  | false =>
      s.trace.any isSaveFlushAction = true
      ∧ saveFlushBeforeFirstWrite s.trace = true

/-!
Row changes (`dm/pkg/sqlmodel`, the part concatenated into the relay
sources): identity values, identity keys and the reduction of two changes
of the same row.  Column values are Go `interface` values that the code
only ever formats with `%v` (in `genKey`) and compares; they are modelled
by their formatted strings.
-/

/-- A column value, modelled by its `%v` rendering. -/
abbrev ColValue := String

/-- `RowChangeType` of `dm/pkg/sqlmodel` (the enum is declared outside the
given sources; its four constants are named by `Reduce`, `SplitUpdate` and
`IsIdentityUpdated`). -/
inductive RowChangeType
  | rowChangeNull
  | rowChangeInsert
  | rowChangeUpdate
  | rowChangeDelete
deriving DecidableEq, Repr

/-- `RowChange`, reduced to the fields the embedded operations read:
the change type, the optional pre- and post-images (`nil` slices are
`none`), and the column offsets of the NOT NULL unique index chosen by
`whereHandle.UniqueNotNullIdx` (`none` when no such index exists). -/
structure RowChange where
  tp : RowChangeType
  preValues : Option (List ColValue)
  postValues : Option (List ColValue)
  identityIndex : Option (List Nat)
deriving DecidableEq, Repr

/-- `RowChange.IdentityValues`: project pre- and post-images on the unique
NOT NULL index columns, falling back to all columns when no such index
exists.  A `nil` image contributes an empty group; the Go code indexes
`values[column.Offset]` which is in range for well-formed rows — out-of-range
offsets are given a default here where Go would panic. -/
def RowChange.identityValues (r : RowChange) : List ColValue × List ColValue :=
  match r.identityIndex with
  | none => (r.preValues.getD [], r.postValues.getD [])
  | some offsets =>
      let pre := match r.preValues with
        | none => []
        | some vs => offsets.map fun off => vs.getD off ""
      let post := match r.postValues with
        | none => []
        | some vs => offsets.map fun off => vs.getD off ""
      (pre, post)

/-- `genKey`: join the `%v` renderings of the values with `"."`. -/
def genKey (values : List ColValue) : String :=
  String.intercalate "." values

/-- `RowChange.IdentityKey`: the key of the pre-image when it is non-empty,
otherwise of the post-image. -/
def RowChange.identityKey (r : RowChange) : String :=
  let (pre, post) := r.identityValues
  if pre.length ≠ 0 then genKey pre else genKey post

/-- Modelled from the spec: `RowChange.calculateType` is not part of the
given sources (only its caller `Reduce` is).  Per §3 the type of a row
change is determined by which images it carries: only a post-image is an
insert, both images an update, only a pre-image a delete. -/
def RowChange.calculateType (r : RowChange) : RowChange :=
  { r with
    tp :=
      match r.preValues, r.postValues with
      | none, some _ => .rowChangeInsert
      | some _, some _ => .rowChangeUpdate
      | some _, none => .rowChangeDelete
      | none, none => .rowChangeNull }

/-- `RowChange.Reduce`: merge the earlier change `preRowChange` into the
receiver `r` in place (the returned value is the updated receiver).  On an
identity-key mismatch the Go code logs `DPanic` and returns the receiver
unchanged.  An INSERT followed by a DELETE is special-cased: the receiver
is returned unchanged, i.e. the pair reduces to the DELETE.  Otherwise the
receiver adopts the earlier change's pre-image and recomputes its type. -/
def RowChange.reduce (r preRowChange : RowChange) : RowChange :=
  if r.identityKey ≠ preRowChange.identityKey then r
  else if r.tp = .rowChangeDelete ∧ preRowChange.tp = .rowChangeInsert then r
  else ({ r with preValues := preRowChange.preValues }).calculateType

/-- An INSERT of the row with identity value `"1"` (index column 0). -/
def rcInsert1 : RowChange :=
  { tp := .rowChangeInsert, preValues := none,
    postValues := some ["1", "a"], identityIndex := some [0] }

/-- A DELETE of the same row. -/
def rcDelete1 : RowChange :=
  { tp := .rowChangeDelete, preValues := some ["1", "a"],
    postValues := none, identityIndex := some [0] }

/-- A row change whose single identity value is the string `"a.b"` (no
unique index, so all columns are identity values). -/
def rcKeyCollision1 : RowChange :=
  { tp := .rowChangeInsert, preValues := none,
    postValues := some ["a.b"], identityIndex := none }

/-- A row change of a different logical row, with the two identity values
`"a"` and `"b"`. -/
def rcKeyCollision2 : RowChange :=
  { tp := .rowChangeInsert, preValues := none,
    postValues := some ["a", "b"], identityIndex := none }

/-!
The table actor (`cdc/processor/pipeline`): `tableActor.Poll`, the control
message dispatch, and the per-node `tryRun` draining loop with its
fetcher/sender adapters.
-/

/-- A pipeline message moved by the fetcher/sender adapters, opaque here. -/
abbrev PipelineMsg := Nat

/-- One `node` of the table actor: the stashed event, the upstream fetcher
(modelled by the queue of messages `TryGetMessage` will yield), the
downstream sender (modelled by its acceptance predicate `sendOK`), and the
ghost list of messages the sender accepted. -/
structure PipelineNode where
  eventStash : Option PipelineMsg
  inbox : List PipelineMsg
  sendOK : PipelineMsg → Bool
  accepted : List PipelineMsg

/-- The inner loop of `node.tryRun` once no event is stashed: repeatedly
fetch a message and try to send it, stashing the message and stopping at
the first refusal. -/
def drainInbox (sendOK : PipelineMsg → Bool) :
    List PipelineMsg → List PipelineMsg →
    Option PipelineMsg × List PipelineMsg × List PipelineMsg
  | [], accepted => (none, [], accepted)
  | m :: rest, accepted =>
      if sendOK m then drainInbox sendOK rest (accepted ++ [m])
      else (some m, rest, accepted)

/-- `node.tryRun`: first retry the stashed event if any; on success keep
draining the fetcher, on refusal keep the stash and yield. -/
def PipelineNode.tryRun (n : PipelineNode) : PipelineNode :=
  match n.eventStash with
  | some m =>
      if n.sendOK m then
        let r := drainInbox n.sendOK n.inbox (n.accepted ++ [m])
        { n with eventStash := r.1, inbox := r.2.1, accepted := r.2.2 }
      else n
  | none =>
      let r := drainInbox n.sendOK n.inbox n.accepted
      { n with eventStash := r.1, inbox := r.2.1, accepted := r.2.2 }

/-- Mailbox messages `tableActor.Poll` dispatches.  A barrier message
carries the ts forwarded to the sink and, as an environment answer, whether
`sinkNode.HandleMessages` fails on it. -/
inductive ActorMsg
  | stop
  | tick
  | barrier (ts : Nat) (sinkErr : Bool)
deriving DecidableEq, Repr

/-- The error a failed barrier dispatch stores in `tableActor.err`. -/
inductive ActorErr
  | sinkError
deriving DecidableEq, Repr

/-- State of the table actor as seen by `Poll`: the `stopped` flag, the
pending error `err`, the barrier timestamps forwarded to the sink node, the
pipeline nodes, plus two ghost lists: the messages dispatched by the `Poll`
loop and the errors surfaced through `reportErr`. -/
structure TableActorState where
  stopped : Bool
  err : Option ActorErr
  sinkBarriers : List Nat
  nodes : List PipelineNode
  dispatched : List ActorMsg
  reported : List ActorErr

/-- `tableActor.stop`: a no-op when already stopped, otherwise records the
flag and the error (context cancellation is environment-driven). -/
def tableActorStop (s : TableActorState) (e : Option ActorErr) : TableActorState :=
  if s.stopped then s else { s with stopped := true, err := e }

/-- The `switch msgs[i].Tp` dispatch of `tableActor.Poll`: `Stop` stops the
actor, `Tick` does nothing, `Barrier` is handed to
`sinkNode.HandleMessages` and a failure there stops the actor with the
error. -/
def dispatchMsg (s : TableActorState) (m : ActorMsg) : TableActorState :=
  match m with
  | .stop => tableActorStop s none
  | .tick => s
  | .barrier ts sinkErr =>
      let s1 : TableActorState := { s with sinkBarriers := s.sinkBarriers ++ [ts] }
      if sinkErr then tableActorStop s1 (some .sinkError) else s1

/-- The `for i := range msgs` loop of `Poll`: each iteration first breaks
out if the actor is stopped, then dispatches the message (recording it in
the ghost `dispatched` list) and runs `tryRun` on every node. -/
def pollLoop (s : TableActorState) : List ActorMsg → TableActorState
  | [] => s
  | m :: rest =>
      if s.stopped then s
      else
        let s1 := dispatchMsg { s with dispatched := s.dispatched ++ [m] } m
        let s2 : TableActorState := { s1 with nodes := s1.nodes.map PipelineNode.tryRun }
        pollLoop s2 rest

/-- `tableActor.checkError`: surface a pending error via `reportErr` and
clear it. -/
def actorCheckError (s : TableActorState) : TableActorState :=
  match s.err with
  | some e => { s with err := none, reported := s.reported ++ [e] }
  | none => s

/-- `tableActor.Poll`: run the message loop, surface any pending error, and
return `!t.stopped` together with the final state. -/
def tableActorPoll (s : TableActorState) (msgs : List ActorMsg) :
    Bool × TableActorState :=
  let s' := actorCheckError (pollLoop s msgs)
  (!s'.stopped, s')

/-- A table actor state as spawned: running, no pending error, empty ghost
lists, no nodes attached (nodes are irrelevant to the dispatch claims). -/
def initActorState : TableActorState :=
  { stopped := false, err := none, sinkBarriers := [], nodes := [],
    dispatched := [], reported := [] }

/-!
Theorems.  Each claim of the specification review is settled by exactly one
theorem below (plus a witness when the theorem carries hypotheses, and a
counterexample where the claim fails on the code).
-/

/-- C1: `emitDDLEvent(d)` returns `done = true` exactly when
`d.commitTs ≤ ddlFinishedTs` at the time of the call; in every other case —
newly sent on the channel (which records `ddlSentTs = d.commitTs`), already
in flight, or channel full — it returns `done = false`, and it never moves
`ddlFinishedTs`. -/
theorem emitDDLEvent_done_iff_finished (s : DDLSinkState) (d : DDLEvent) :
    (emitDDLEvent s d).1 = decide (d.commitTs ≤ s.ddlFinishedTs)
    ∧ (emitDDLEvent s d).2.ddlSentTs =
        (if s.ddlFinishedTs < d.commitTs ∧ s.ddlSentTs < d.commitTs ∧ s.ddlCh = none
         then d.commitTs else s.ddlSentTs)
    ∧ (emitDDLEvent s d).2.ddlFinishedTs = s.ddlFinishedTs := by
  rcases s with ⟨fin, sent, ch, proc⟩
  rcases ch with _ | e <;>
    simp only [emitDDLEvent] <;>
    split_ifs <;>
    simp_all <;>
    omega

/-- C2: whenever the scheduler returns actual watermarks (not the
`CheckpointCannotProceed` sentinel) and the tick persists them, both
persisted values are clamped to the barrier; the clamping preserves
`checkpoint ≤ resolved`, and `updateStatus` writes exactly these values
into the status. -/
theorem tick_watermarks_clamped_to_barrier
    (checkpointTs barrierTs nc nr : Nat) (p : Nat × Nat) (st : ChangeFeedStatus)
    (h : tickPersistedWatermarks checkpointTs barrierTs (some (nc, nr)) = some p) :
    p.1 ≤ barrierTs ∧ p.2 ≤ barrierTs
    ∧ (nc ≤ nr → p.1 ≤ p.2)
    ∧ updateStatus (some st) p.1 p.2
        = some { st with checkpointTs := p.1, resolvedTs := p.2 } := by
  unfold tickPersistedWatermarks at h
  split_ifs at h
  simp only [Option.some.injEq] at h
  subst h
  refine ⟨?_, ?_, ?_, ?_⟩ <;>
    simp only [updateStatus] <;>
    split_ifs <;>
    first
      | rfl
      | omega

/-- Witness for C2 at checkpoint 3, barrier 10, scheduler result (5, 20):
the tick persists (5, 10). -/
theorem tick_watermarks_clamped_to_barrier_witness :
    ((5, 10) : Nat × Nat).1 ≤ 10 ∧ ((5, 10) : Nat × Nat).2 ≤ 10
    ∧ (5 ≤ 20 → ((5, 10) : Nat × Nat).1 ≤ ((5, 10) : Nat × Nat).2)
    ∧ updateStatus (some ⟨0, 0⟩) ((5, 10) : Nat × Nat).1 ((5, 10) : Nat × Nat).2
        = some { (⟨0, 0⟩ : ChangeFeedStatus) with
                   checkpointTs := ((5, 10) : Nat × Nat).1,
                   resolvedTs := ((5, 10) : Nat × Nat).2 } :=
  tick_watermarks_clamped_to_barrier 3 10 5 20 (5, 10) ⟨0, 0⟩ (by decide)

/-- C3: at a relay log file of size 2^32 whose last complete transaction
also ends at offset 2^32, `doRecovering` reports success without
truncation, but the returned `LatestPos.Pos` is `uint32(2^32) = 0`, not
`latestPos`: the `uint32` conversion drops the high bits of the 64-bit
offset, contrary to the claim (and to the source's own note to handle
files over 4 GiB). -/
theorem doRecovering_wraps_offset_at_4GiB :
    doRecovering true ((2 : Int) ^ 32) "mysql-bin.000001" ((2 : Int) ^ 32) none
      = Except.ok ⟨false, ⟨"mysql-bin.000001", 0⟩, none⟩
    ∧ uint32cast ((2 : Int) ^ 32) = 0
    ∧ (0 : Nat) ≠ 2 ^ 32 := by
  refine ⟨?_, by decide, by decide⟩
  simp [doRecovering, uint32cast]

/-- C4 counterexample: reducing the INSERT of row "1" followed by the
DELETE of row "1" (equal identity keys) leaves the receiver unchanged: the
result is the DELETE itself, not an empty result — a row change remains. -/
theorem reduce_insert_delete_counterexample :
    RowChange.reduce rcDelete1 rcInsert1 = rcDelete1
    ∧ rcDelete1.tp = RowChangeType.rowChangeDelete
    ∧ rcDelete1.identityKey = rcInsert1.identityKey := by decide

/-- C4 (amended): for A an INSERT and B a DELETE with equal identity keys,
`Reduce` takes the special `INSERT + DELETE -> DELETE` branch and returns
the receiver B unchanged: the pair reduces to the DELETE, which remains to
be emitted. -/
theorem reduce_insert_delete_keeps_delete (a b : RowChange)
    (ha : a.tp = RowChangeType.rowChangeInsert)
    (hb : b.tp = RowChangeType.rowChangeDelete)
    (hk : b.identityKey = a.identityKey) :
    RowChange.reduce b a = b := by
  simp [RowChange.reduce, hk, ha, hb]

/-- Witness for the amended C4 at the concrete INSERT/DELETE pair. -/
theorem reduce_insert_delete_keeps_delete_witness :
    RowChange.reduce rcDelete1 rcInsert1 = rcDelete1 :=
  reduce_insert_delete_keeps_delete rcInsert1 rcDelete1 rfl rfl (by decide)

/-- C5 counterexample: an XID event whose header has the artificial flag
(0x0020) set and which is not a rotate event is not ignored by
`preprocessEvent`: the artificial-flag test lives only in the `default`
branch of the type switch, which XID events never reach. -/
theorem preprocess_artificial_xid_not_ignored :
    (preprocessEvent (fun _ => true) ⟨⟨.otherType, 0x20, 100⟩, .xid none⟩).ignore = false
    ∧ (0x20 : Nat) &&& LOG_EVENT_ARTIFICIAL_F ≠ 0
    ∧ isRotateBody (.xid none) = false := by decide

/-- C5 (amended): for every binlog event, `preprocessEvent` ignores it with
reason "artificial flag (0x0020) set" exactly when it falls to the
`default` branch of the type switch (neither previous-GTIDs, MariaDB
GTID-list, rotate, query, XID nor generic) and its header has
`LOG_EVENT_ARTIFICIAL_F` set; in particular query, XID, previous-GTIDs,
MariaDB GTID-list and rotate events are never ignored at all, and generic
events are never ignored for that reason, whatever their flags. -/
theorem preprocess_artificial_ignore_only_default
    (checkIsDDL : String → Bool) (e : BinlogEvent) :
    ((preprocessEvent checkIsDDL e).ignore = true
        ∧ (preprocessEvent checkIsDDL e).ignoreReason = ignoreReasonArtificialFlag
      ↔ e.body = .otherEvent ∧ e.header.flags &&& LOG_EVENT_ARTIFICIAL_F ≠ 0)
    ∧ (e.body ≠ .otherEvent ∧ e.body ≠ .generic →
        (preprocessEvent checkIsDDL e).ignore = false) := by
  rcases e with ⟨hd, body⟩
  cases body
  case previousGTIDs => exact ⟨by simp [preprocessEvent], fun _ => rfl⟩
  case mariadbGTIDList => exact ⟨by simp [preprocessEvent], fun _ => rfl⟩
  case rotate position nextLogName => exact ⟨by simp [preprocessEvent], fun _ => rfl⟩
  case xid gset => exact ⟨by simp [preprocessEvent], fun _ => rfl⟩
  case query queryStr gset =>
    refine ⟨?_, fun _ => ?_⟩ <;>
      simp only [preprocessEvent] <;>
      split_ifs <;>
      simp
  case generic =>
    refine ⟨?_, fun hne => absurd rfl hne.2⟩
    simp only [preprocessEvent]
    split_ifs with hh
    · constructor
      · rintro ⟨_, habs⟩
        have habs' : ignoreReasonHeartbeat = ignoreReasonArtificialFlag := habs
        exact absurd habs' (by decide)
      · rintro ⟨habs, _⟩
        cases habs
    · simp
  case otherEvent =>
    refine ⟨?_, fun hne => absurd rfl hne.1⟩
    simp only [preprocessEvent]
    split_ifs with hf
    · simp [hf]
    · simp [hf]

/-- Witness for the amended C5: a DDL query event whose header has the
artificial flag set is not ignored. -/
theorem preprocess_artificial_ignore_only_default_witness :
    (preprocessEvent (fun _ => true)
        ⟨⟨.otherType, 0x20, 100⟩, .query "CREATE TABLE t (a INT)" none⟩).ignore
      = false :=
  (preprocess_artificial_ignore_only_default (fun _ => true)
      ⟨⟨.otherType, 0x20, 100⟩, .query "CREATE TABLE t (a INT)" none⟩).2
    ⟨by decide, by decide⟩

/-- C10: the identity-key serialization is not injective: the single value
`"a.b"` and the pair `"a"`, `"b"` produce the same `genKey` string, so the
two distinct logical rows `rcKeyCollision1` and `rcKeyCollision2` share one
identity key while their identity values differ. -/
theorem genKey_not_injective :
    genKey ["a.b"] = genKey ["a", "b"]
    ∧ (["a.b"] : List ColValue) ≠ ["a", "b"]
    ∧ rcKeyCollision1.identityKey = rcKeyCollision2.identityKey
    ∧ rcKeyCollision1.identityValues ≠ rcKeyCollision2.identityValues := by decide

/-- Rotate events are never ignored by `preprocessEvent`: its rotate branch
only records the next file name and position. -/
theorem preprocess_rotate_not_ignored (checkIsDDL : String → Bool)
    (e : BinlogEvent) (h : isRotateBody e.body = true) :
    (preprocessEvent checkIsDDL e).ignore = false := by
  rcases e with ⟨hd, body⟩
  cases body <;> simp_all [isRotateBody, preprocessEvent]

/-- C6: when the loop body of `handleEvents` receives a fake rotate event
(a rotate whose header carries the artificial flag) and the upstream server
UUID differs from the metadata's, it terminates with
`ErrRotateEventWithDifferentServerID` — in particular the event is not
written. -/
theorem handleEvents_fake_rotate_new_server_errors
    (checkIsDDL : String → Bool) (enableGTID : Bool)
    (s : HandleState) (ie : RelayInputEvent)
    (hrot : isRotateBody ie.event.body = true)
    (hfake : isFakeRotateEvent ie.event.header = true)
    (hnew : ie.upstreamIsNew = true) :
    handleOneEvent checkIsDDL enableGTID s ie
      = .error .rotateEventWithDifferentServerID := by
  have hig := preprocess_rotate_not_ignored checkIsDDL ie.event hrot
  simp [handleOneEvent, hig, hrot, hfake, hnew]

/-- Witness for C6: a fake rotate from a new upstream server terminates the
loop with the rotate error. -/
theorem handleEvents_fake_rotate_new_server_errors_witness :
    handleOneEvent (fun _ => false) true (initHandleState ⟨"mysql-bin.000001", 4⟩ "")
      ⟨⟨⟨.rotateType, 0x20, 0⟩, .rotate 4 "mysql-bin.000002"⟩, true, false⟩
      = .error .rotateEventWithDifferentServerID :=
  handleEvents_fake_rotate_new_server_errors (fun _ => false) true
    (initHandleState ⟨"mysql-bin.000001", 4⟩ "")
    ⟨⟨⟨.rotateType, 0x20, 0⟩, .rotate 4 "mysql-bin.000002"⟩, true, false⟩
    (by decide) (by decide) (by decide)

/-- The DDL sink invariant holds initially and is preserved by every step. -/
theorem ddlSinkInv_step {s s' : DDLSinkState}
    (hinv : DDLSinkInv s) (hstep : DDLSinkStep s s') : DDLSinkInv s' := by
  obtain ⟨h1, h2, h3⟩ := hinv
  cases hstep with
  | emit ddl =>
      unfold emitDDLEvent
      split_ifs with hf hs
      · exact ⟨h1, h2, h3⟩
      · exact ⟨h1, h2, h3⟩
      · rcases hch : s.ddlCh with _ | e
        · refine ⟨by simp; omega, ?_, ?_⟩
          · intro d hd
            simp at hd
            subst hd
            simp
          · intro d hd
            simp at hd
            have := h3 d hd
            simp
            omega
        · exact ⟨h1, h2, h3⟩
  | recv d h hp =>
      refine ⟨h1, by intro d' hd'; simp at hd', ?_⟩
      intro d' hd'
      simp at hd'
      subst hd'
      exact h2 _ h
  | finishOk d h =>
      refine ⟨h3 d h, ?_, ?_⟩
      · intro d' hd'
        simp at hd'
        simpa using h2 d' hd'
      · intro d' hd'
        simp at hd'
  | finishFail d h =>
      refine ⟨h1, ?_, ?_⟩
      · intro d' hd'
        simp at hd'
        simpa using h2 d' hd'
      · intro d' hd'
        simp at hd'

/-- C8: in every reachable state of the DDL sink — reachable under
`emitDDLEvent` calls and the background run-loop steps — the sent watermark
dominates the finished watermark: `ddlSentTs ≥ ddlFinishedTs`. -/
theorem ddlSink_sent_ge_finished (s : DDLSinkState) (h : DDLSinkReachable s) :
    s.ddlFinishedTs ≤ s.ddlSentTs := by
  have hinv : DDLSinkInv s := by
    induction h with
    | init =>
        exact ⟨Nat.le_refl 0, fun d hd => by simp [initDDLSink] at hd,
               fun d hd => by simp [initDDLSink] at hd⟩
    | step hr hstep ih => exact ddlSinkInv_step ih hstep
  exact hinv.1

/-- Witness for C8 at the state reached by sending the DDL with commit-ts 5,
receiving it in the run loop and finishing it downstream. -/
theorem ddlSink_sent_ge_finished_witness :
    (⟨5, 5, none, none⟩ : DDLSinkState).ddlFinishedTs
      ≤ (⟨5, 5, none, none⟩ : DDLSinkState).ddlSentTs :=
  ddlSink_sent_ge_finished ⟨5, 5, none, none⟩
    (.step (.step (.step .init (.emit initDDLSink ⟨5⟩))
        (.recv (emitDDLEvent initDDLSink ⟨5⟩).2 ⟨5⟩ rfl rfl))
      (.finishOk _ ⟨5⟩ rfl))

/-- A stopped actor ignores the rest of the batch: the `Poll` loop breaks
out at the top of each iteration. -/
theorem pollLoop_of_stopped (s : TableActorState) (msgs : List ActorMsg)
    (h : s.stopped = true) : pollLoop s msgs = s := by
  cases msgs with
  | nil => rfl
  | cons m rest => simp [pollLoop, h]

/-- The `Poll` loop processes a concatenation of batches sequentially. -/
theorem pollLoop_append (s : TableActorState) (xs ys : List ActorMsg) :
    pollLoop s (xs ++ ys) = pollLoop (pollLoop s xs) ys := by
  induction xs generalizing s with
  | nil => rfl
  | cons m rest ih =>
      by_cases h : s.stopped
      · simp [pollLoop, h, pollLoop_of_stopped]
      · simp only [List.cons_append, pollLoop, h]
        simp [ih]

/-- C9: `tableActor.Poll` dispatches the batch in order — the `Tick` case
of the dispatch switch changes nothing, a `Barrier` is forwarded to the
sink node, and a `Stop` arriving after any prefix that did not already stop
the actor marks it stopped and nothing after it in the batch is dispatched;
`Poll` returns `true` exactly when the actor is not stopped at the end of
the batch. -/
theorem tableActor_poll_dispatch (s : TableActorState) (msgs : List ActorMsg) :
    ((tableActorPoll s msgs).1 = !(tableActorPoll s msgs).2.stopped)
    ∧ (∀ u : TableActorState, dispatchMsg u .tick = u)
    ∧ (∀ (u : TableActorState) (ts : Nat) (be : Bool),
        (dispatchMsg u (.barrier ts be)).sinkBarriers = u.sinkBarriers ++ [ts])
    ∧ (∀ post : List ActorMsg, (pollLoop s msgs).stopped = false →
        (pollLoop s (msgs ++ ActorMsg.stop :: post)).stopped = true
        ∧ (pollLoop s (msgs ++ ActorMsg.stop :: post)).dispatched
            = (pollLoop s msgs).dispatched ++ [ActorMsg.stop]) := by
  refine ⟨?_, fun u => rfl, ?_, ?_⟩
  · cases herr : (pollLoop s msgs).err <;>
      simp [tableActorPoll, actorCheckError, herr]
  · intro u ts be
    cases be
    · rfl
    · simp only [dispatchMsg, tableActorStop]
      split_ifs <;> rfl
  · intro post h
    rw [pollLoop_append]
    set u := pollLoop s msgs with hu
    have hstep :
        pollLoop u (ActorMsg.stop :: post)
          = pollLoop
              { u with stopped := true, err := none,
                       dispatched := u.dispatched ++ [ActorMsg.stop],
                       nodes := u.nodes.map PipelineNode.tryRun } post := by
      simp [pollLoop, h, dispatchMsg, tableActorStop]
    rw [hstep, pollLoop_of_stopped _ _ rfl]
    exact ⟨rfl, rfl⟩

/-- Witness for C9: from a freshly spawned actor, a batch consisting of one
`Stop` message stops the actor and dispatches only that message. -/
theorem tableActor_poll_dispatch_witness :
    (pollLoop initActorState ([] ++ ActorMsg.stop :: [])).stopped = true
    ∧ (pollLoop initActorState ([] ++ ActorMsg.stop :: [])).dispatched
        = (pollLoop initActorState []).dispatched ++ [ActorMsg.stop] :=
  (tableActor_poll_dispatch initActorState []).2.2.2 [] rfl

/-- A trace without writes trivially satisfies the ordering property. -/
theorem saveFlushBeforeFirstWrite_of_noWrite (tr : List RelayAction)
    (h : tr.any isWriteAction = false) :
    saveFlushBeforeFirstWrite tr = true := by
  induction tr with
  | nil => rfl
  | cons a rest ih =>
      rw [List.any_cons] at h
      have hw : isWriteAction a = false := by
        cases hw : isWriteAction a
        · rfl
        · rw [hw] at h; simp at h
      rw [hw] at h
      simp only [Bool.false_or] at h
      unfold saveFlushBeforeFirstWrite
      split_ifs with h1 h2
      · rfl
      · rw [h2] at hw; cases hw
      · exact ih h

/-- Appending a save-and-flush (and anything after it) to a write-free trace
keeps the ordering property. -/
theorem saveFlushBeforeFirstWrite_noWrite_append (tr : List RelayAction)
    (h : tr.any isWriteAction = false) (p : MysqlPosition) (g : GtidSet)
    (more : List RelayAction) :
    saveFlushBeforeFirstWrite (tr ++ RelayAction.saveFlushMeta p g :: more) = true := by
  induction tr with
  | nil => rfl
  | cons a rest ih =>
      rw [List.any_cons] at h
      have hw : isWriteAction a = false := by
        cases hw : isWriteAction a
        · rfl
        · rw [hw] at h; simp at h
      rw [hw] at h
      simp only [Bool.false_or] at h
      rw [List.cons_append]
      unfold saveFlushBeforeFirstWrite
      split_ifs with h1 h2
      · rfl
      · rw [h2] at hw; cases hw
      · exact ih h


/-- Once a save-and-flush precedes the first write, appending further
actions cannot break the ordering. -/
theorem saveFlushBeforeFirstWrite_append (tr more : List RelayAction)
    (hok : saveFlushBeforeFirstWrite tr = true)
    (hsf : tr.any isSaveFlushAction = true) :
    saveFlushBeforeFirstWrite (tr ++ more) = true := by
  induction tr with
  | nil => simp at hsf
  | cons a rest ih =>
      rw [List.any_cons] at hsf
      rw [List.cons_append]
      unfold saveFlushBeforeFirstWrite at hok ⊢
      by_cases h1 : isSaveFlushAction a = true
      · rw [if_pos h1]
      · rw [if_neg h1] at hok ⊢
        have h1f : isSaveFlushAction a = false := by
          cases hx : isSaveFlushAction a
          · rfl
          · exact absurd hx h1
        rw [h1f] at hsf
        simp only [Bool.false_or] at hsf
        by_cases h2 : isWriteAction a = true
        · rw [if_pos h2] at hok
          exact absurd hok (by simp)
        · rw [if_neg h2] at hok ⊢
          exact ih hok hsf

/-- `rotateAdvance` never touches the ghost trace or the flag. -/
theorem rotateAdvance_trace (t : PreprocessResult) (s : HandleState) :
    (rotateAdvance t s).trace = s.trace
    ∧ (rotateAdvance t s).firstEvent = s.firstEvent := by
  unfold rotateAdvance
  split_ifs <;> exact ⟨rfl, rfl⟩

/-- The write phase of the loop body only appends to the ghost trace and
never touches the `firstEvent` flag. -/
theorem relayWritePhase_trace (eg : Bool) (e : BinlogEvent) (t : PreprocessResult)
    (w : Bool) (s : HandleState) :
    s.trace <+: (relayWritePhase eg e t w s).trace
    ∧ (relayWritePhase eg e t w s).firstEvent = s.firstEvent := by
  unfold relayWritePhase
  split_ifs <;> exact ⟨⟨_, rfl⟩, rfl⟩

/-- `handleKeptEvent` flushes the metadata into the trace before any other
action when it handles the first kept event, and only appends otherwise. -/
theorem handleKeptEvent_cases (eg : Bool) (e : BinlogEvent) (t : PreprocessResult)
    (w : Bool) (s1 : HandleState) :
    (s1.firstEvent = true
      ∧ (handleKeptEvent eg e t w s1).firstEvent = false
      ∧ ∃ ext, (handleKeptEvent eg e t w s1).trace
          = s1.trace ++ RelayAction.saveFlushMeta s1.lastPos s1.lastGTID :: ext)
    ∨ (s1.firstEvent = false
      ∧ (handleKeptEvent eg e t w s1).firstEvent = false
      ∧ ∃ ext, (handleKeptEvent eg e t w s1).trace = s1.trace ++ ext) := by
  by_cases hfe : s1.firstEvent = true
  · left
    simp only [handleKeptEvent]
    rw [if_pos hfe]
    obtain ⟨⟨ext, hext⟩, hf⟩ :=
      relayWritePhase_trace eg e t w
        { s1 with firstEvent := false,
                  trace := s1.trace ++ [.saveFlushMeta s1.lastPos s1.lastGTID] }
    refine ⟨hfe, hf, ext, ?_⟩
    rw [← hext]
    simp
  · right
    have hfe' : s1.firstEvent = false := by
      cases hx : s1.firstEvent
      · rfl
      · exact absurd hx hfe
    simp only [handleKeptEvent]
    rw [if_neg hfe]
    obtain ⟨⟨ext, hext⟩, hf⟩ := relayWritePhase_trace eg e t w s1
    exact ⟨hfe', by rw [hf, hfe'], ext, hext.symm⟩

/-- Case analysis of one successful loop iteration: either the event was
ignored (trace and flag unchanged), or it was the first kept event (the
trace grows by a save-and-flush followed by further actions and the flag
drops), or a later kept event (the trace only grows). -/
theorem handleOneEvent_ok_cases (f : String → Bool) (eg : Bool)
    (s s' : HandleState) (ie : RelayInputEvent)
    (h : handleOneEvent f eg s ie = .ok s') :
    (s'.trace = s.trace ∧ s'.firstEvent = s.firstEvent)
    ∨ (s.firstEvent = true ∧ s'.firstEvent = false
        ∧ ∃ p g ext, s'.trace = s.trace ++ RelayAction.saveFlushMeta p g :: ext)
    ∨ (s.firstEvent = false ∧ s'.firstEvent = false
        ∧ ∃ ext, s'.trace = s.trace ++ ext) := by
  obtain ⟨h1t, h1f⟩ := rotateAdvance_trace (preprocessEvent f ie.event) s
  simp only [handleOneEvent] at h
  split at h
  · injection h with h
    subst h
    exact Or.inl ⟨h1t, h1f⟩
  · split at h
    · exact absurd h (by simp)
    · injection h with h
      subst h
      rcases handleKeptEvent_cases eg ie.event (preprocessEvent f ie.event)
          ie.writerIgnore (rotateAdvance (preprocessEvent f ie.event) s) with
        ⟨hfe, hf', ext, hext⟩ | ⟨hfe, hf', ext, hext⟩
      · exact Or.inr (Or.inl ⟨by rw [← h1f]; exact hfe, hf',
          (rotateAdvance (preprocessEvent f ie.event) s).lastPos,
          (rotateAdvance (preprocessEvent f ie.event) s).lastGTID, ext,
          by rw [hext, h1t]⟩)
      · exact Or.inr (Or.inr ⟨by rw [← h1f]; exact hfe, hf', ext,
          by rw [hext, h1t]⟩)

/-- One successful loop iteration preserves the trace invariant. -/
theorem handleOneEvent_traceInv (f : String → Bool) (eg : Bool)
    (s s' : HandleState) (ie : RelayInputEvent)
    (hinv : TraceInv s) (h : handleOneEvent f eg s ie = .ok s') :
    TraceInv s' := by
  rcases handleOneEvent_ok_cases f eg s s' ie h with
    ⟨ht, hf⟩ | ⟨hfe, hf', p, g, ext, ht⟩ | ⟨hfe, hf', ext, ht⟩
  · unfold TraceInv at hinv ⊢
    rw [ht, hf]
    exact hinv
  · have hnw : s.trace.any isWriteAction = false := by
      simpa [TraceInv, hfe] using hinv
    simp only [TraceInv, hf', ht]
    refine ⟨?_, saveFlushBeforeFirstWrite_noWrite_append _ hnw p g ext⟩
    simp [List.any_append, isSaveFlushAction]
  · have hprev : s.trace.any isSaveFlushAction = true
        ∧ saveFlushBeforeFirstWrite s.trace = true := by
      simpa [TraceInv, hfe] using hinv
    simp only [TraceInv, hf', ht]
    refine ⟨?_, saveFlushBeforeFirstWrite_append _ _ hprev.2 hprev.1⟩
    simp [List.any_append, hprev.1]

/-- The trace invariant is preserved along any successful run of the loop. -/
theorem handleEventsList_traceInv (f : String → Bool) (eg : Bool)
    (events : List RelayInputEvent) :
    ∀ s s' : HandleState, TraceInv s →
      handleEventsList f eg s events = .ok s' → TraceInv s' := by
  induction events with
  | nil =>
      intro s s' hinv h
      simp only [handleEventsList] at h
      injection h with h
      subst h
      exact hinv
  | cons ie rest ih =>
      intro s s' hinv h
      simp only [handleEventsList] at h
      cases hone : handleOneEvent f eg s ie with
      | error err =>
          simp only [hone] at h
          exact absurd h (by simp)
      | ok smid =>
          simp only [hone] at h
          exact ih smid s' (handleOneEvent_traceInv f eg s smid ie hinv hone) h

/-- C7: in every run of `handleEvents` from its initial state, a successful
save-and-flush of the metadata (performed at the first kept event) precedes
the first call to `writer.WriteEvent` in the ghost trace: the relay never
writes an event to a binlog file before the metadata file exists, covering
the empty-binlog case where the run ends before any write. -/
theorem handleEvents_meta_flushed_before_first_write
    (checkIsDDL : String → Bool) (enableGTID : Bool)
    (pos : MysqlPosition) (g : GtidSet)
    (events : List RelayInputEvent) (s' : HandleState)
    (h : handleEventsList checkIsDDL enableGTID (initHandleState pos g) events
          = .ok s') :
    saveFlushBeforeFirstWrite s'.trace = true := by
  have hinv0 : TraceInv (initHandleState pos g) := by
    simp [TraceInv, initHandleState]
  have hinv' := handleEventsList_traceInv checkIsDDL enableGTID events _ s' hinv0 h
  cases hfe : s'.firstEvent
  · have hprev : s'.trace.any isSaveFlushAction = true
        ∧ saveFlushBeforeFirstWrite s'.trace = true := by
      simpa [TraceInv, hfe] using hinv'
    exact hprev.2
  · exact saveFlushBeforeFirstWrite_of_noWrite _ (by simpa [TraceInv, hfe] using hinv')

/-- Witness for C7: a run consisting of one kept XID event; its final trace
starts with the save-and-flush, before the write. -/
theorem handleEvents_meta_flushed_before_first_write_witness :
    saveFlushBeforeFirstWrite
      ((handleEventsList (fun _ => false) true (initHandleState ⟨"", 4⟩ "")
          [⟨⟨⟨.otherType, 0, 200⟩, .xid none⟩, false, false⟩]).toOption.getD
        (initHandleState ⟨"", 4⟩ "")).trace = true :=
  handleEvents_meta_flushed_before_first_write (fun _ => false) true ⟨"", 4⟩ ""
    [⟨⟨⟨.otherType, 0, 200⟩, .xid none⟩, false, false⟩] _ rfl
